import Mathlib

/-
Verification of the finding_tickers backend core against its design notes.

The Python sources are shallowly embedded:
  * real-valued quantities (wall-clock instants, token counts, delays,
    similarity ratios) are modelled exactly over the rationals; for the
    magnitudes appearing here the comparisons the Python code performs on
    IEEE doubles agree with the exact comparisons, so nothing observable
    is lost;
  * stateful objects become explicit state passing, with the current
    wall-clock instant an explicit argument wherever the code reads
    time.time();
  * exceptions become explicit error values (Except / dedicated outcome
    types).
-/

namespace FindingTickers

/-! ## TokenBucket (backend/app/utils/rate_limiter.py, class TokenBucket)

State of a bucket; `tokens` and times are exact rationals.  `__init__`
sets `tokens = capacity` and `last_refill = time.time()`. -/

structure TokenBucket where
  capacity : ℚ
  refill_rate : ℚ
  tokens : ℚ
  last_refill : ℚ
  deriving DecidableEq

/-- Constructor `TokenBucket.__init__(capacity, refill_rate)` called at
instant `now`. -/
def TokenBucket.init (capacity refill_rate now : ℚ) : TokenBucket :=
  { capacity := capacity, refill_rate := refill_rate,
    tokens := capacity, last_refill := now }

/-- Method `_refill`: `tokens = min(capacity, tokens + elapsed * refill_rate);
last_refill = now`. -/
def TokenBucket.refill (b : TokenBucket) (now : ℚ) : TokenBucket :=
  { b with
    tokens := min b.capacity (b.tokens + (now - b.last_refill) * b.refill_rate),
    last_refill := now }

/-- Method `consume(tokens)` at instant `now`: refill first, then decrement
and return True when enough tokens are available, else leave the refilled
state and return False. -/
def TokenBucket.consume (b : TokenBucket) (now : ℚ) (n : ℕ) : TokenBucket × Bool :=
  let b := b.refill now
  if (n : ℚ) ≤ b.tokens then
    ({ b with tokens := b.tokens - (n : ℚ) }, true)
  else
    (b, false)

/-- Method `get_wait_time(tokens)` at instant `now`: refill first, return 0
when enough tokens are available, else `(tokens - self.tokens) / refill_rate`.
The refilled bucket is returned because `_refill` mutates the object. -/
def TokenBucket.get_wait_time (b : TokenBucket) (now : ℚ) (n : ℕ) : TokenBucket × ℚ :=
  let b := b.refill now
  if (n : ℚ) ≤ b.tokens then
    (b, 0)
  else
    (b, ((n : ℚ) - b.tokens) / b.refill_rate)

/-! Sequences of observations on one bucket.  Each operation carries the
wall-clock instant at which it happens. -/

inductive BucketOp where
  | consume (now : ℚ) (n : ℕ)
  | refill (now : ℚ)
  deriving DecidableEq

def BucketOp.now : BucketOp → ℚ
  | .consume t _ => t
  | .refill t => t

def BucketOp.apply (b : TokenBucket) : BucketOp → TokenBucket
  | .consume t n => (b.consume t n).1
  | .refill t => b.refill t

/-- Trace of bucket states after each operation of a sequence. -/
def runOps (b : TokenBucket) : List BucketOp → List TokenBucket
  | [] => []
  | op :: rest =>
    let b := op.apply b
    b :: runOps b rest

/-- Observation instants are nondecreasing, starting no earlier than `t`. -/
def timesOK (t : ℚ) : List BucketOp → Bool
  | [] => true
  | op :: rest => decide (t ≤ op.now) && timesOK op.now rest

/-! ## RateLimiter (backend/app/utils/rate_limiter.py, class RateLimiter)

The `_buckets` dict is modelled as an association list keyed by name. -/

def lookupBucket (buckets : List (String × TokenBucket)) (name : String) :
    Option TokenBucket :=
  (buckets.find? (fun p => p.1 == name)).map Prod.snd

def updateBucket (buckets : List (String × TokenBucket)) (name : String)
    (b : TokenBucket) : List (String × TokenBucket) :=
  buckets.map (fun p => if p.1 == name then (p.1, b) else p)

/-- Method `RateLimiter.consume(bucket_name, tokens)` at instant `now`.
When the bucket does not exist the request is allowed (`return True`)
with no state change. -/
def RateLimiter.consume (buckets : List (String × TokenBucket))
    (bucket_name : String) (now : ℚ) (tokens : ℕ) :
    List (String × TokenBucket) × Bool :=
  match lookupBucket buckets bucket_name with
  | none => (buckets, true)
  | some b =>
    let r := b.consume now tokens
    (updateBucket buckets bucket_name r.1, r.2)

/-- Method `RateLimiter.wait_if_needed(bucket_name, tokens)` at instant
`now`; returns the updated table and the duration slept (0 when the
bucket does not exist or enough tokens are available). -/
def RateLimiter.wait_if_needed (buckets : List (String × TokenBucket))
    (bucket_name : String) (now : ℚ) (tokens : ℕ) :
    List (String × TokenBucket) × ℚ :=
  match lookupBucket buckets bucket_name with
  | none => (buckets, 0)
  | some b =>
    let r := b.get_wait_time now tokens
    (updateBucket buckets bucket_name r.1, r.2)

/-! ## APIRateLimiter.execute_with_rate_limit (rate_limiter.py, lines 153-205)

The limiter bucket is shared by every worker thread, so from the point
of view of one `execute_with_rate_limit` call the results of
`wait_if_needed`, `consume` and `get_wait_time`, and the outcome of the
wrapped function, are determined by the interleaving with the other
threads.  The model therefore takes one environment record per loop
iteration describing what those shared-state calls returned; the
function body itself (branching, sleeping, the `wait_time` local, what
is raised) is translated line by line.  `retry_attempts = 3` and
`retry_delay = 1.0` as in `__init__`. -/

/-- Outcome of one invocation of the wrapped function `func`. -/
inductive FuncRes (α : Type) where
  | ok (v : α)
  | rateLimitExc (retry_after : Option ℤ)
  | genericExc (msg : String)
  deriving DecidableEq

/-- What the shared limiter did during one iteration of the retry loop. -/
structure AttemptEnv (α : Type) where
  /-- duration slept inside `wait_if_needed("api", 1)` -/
  waitNeeded : ℚ
  /-- result of `self.rate_limiter.consume("api", 1)` -/
  consumeOk : Bool
  /-- value `get_wait_time(1)` would return at line 176 -/
  waitHint : ℚ
  /-- result of `func(*args, **kwargs)` (consulted only when the token
  was consumed) -/
  funcRes : FuncRes α
  deriving DecidableEq

inductive ExecOutcome (α : Type) where
  /-- normal return -/
  | ok (v : α)
  /-- `APIRateLimitException` propagated to the caller -/
  | apiRateLimit (retry_after : Option ℤ)
  /-- any other exception propagated to the caller (line 201 `raise`) -/
  | otherExc (msg : String)
  /-- Python `UnboundLocalError`: line 182 reads `wait_time` although no
  earlier iteration executed line 176 -/
  | unboundLocalWaitTime
  deriving DecidableEq

structure ExecTrace (α : Type) where
  outcome : ExecOutcome α
  /-- every `time.sleep` performed, in order -/
  sleeps : List ℚ
  /-- number of invocations of `func` -/
  funcCalls : ℕ
  deriving DecidableEq

/-- Python `int()` applied to a rational (truncation toward zero). -/
def pyInt (q : ℚ) : ℤ := if 0 ≤ q then ⌊q⌋ else ⌈q⌉

/-- One iteration of the `for attempt in range(self.retry_attempts)` loop
and the recursion for the remaining iterations.  `wt` is the `wait_time`
local variable (`none` = not yet assigned), `sleeps` accumulates in
reverse. -/
def execAux {α : Type} (envs : List (AttemptEnv α)) (attempt : ℕ)
    (wt : Option ℚ) (sleeps : List ℚ) (calls : ℕ) : ExecTrace α :=
  match envs with
  | [] =>
    -- line 203: loop exhausted without returning or raising
    ⟨.apiRateLimit none, sleeps.reverse, calls⟩
  | env :: rest =>
    -- line 171: self.rate_limiter.wait_if_needed("api", 1) sleeps only
    -- when the computed wait time is positive
    let sleeps := if 0 < env.waitNeeded then env.waitNeeded :: sleeps else sleeps
    if env.consumeOk = false then
      if attempt < 2 then
        -- lines 176-179: record wait_time, sleep it, continue
        execAux rest (attempt + 1) (some env.waitHint)
          (env.waitHint :: sleeps) calls
      else
        -- lines 181-184 on the final attempt: raise
        -- APIRateLimitException(retry_after=int(wait_time)); evaluating
        -- wait_time fails when it was never assigned.  Either way the
        -- exception reaches the handlers with attempt == last, which
        -- re-raise (lines 189-194 / 195-201).
        match wt with
        | some w => ⟨.apiRateLimit (some (pyInt w)), sleeps.reverse, calls⟩
        | none => ⟨.unboundLocalWaitTime, sleeps.reverse, calls⟩
    else
      match env.funcRes with
      | .ok v =>
        -- line 187: return func(*args, **kwargs)
        ⟨.ok v, sleeps.reverse, calls + 1⟩
      | .rateLimitExc h =>
        -- lines 189-194: except APIRateLimitException: exponential
        -- backoff and retry, re-raise on the final attempt
        if attempt < 2 then
          execAux rest (attempt + 1) wt ((1 * 2 ^ attempt : ℚ) :: sleeps) (calls + 1)
        else
          ⟨.apiRateLimit h, sleeps.reverse, calls + 1⟩
      | .genericExc m =>
        -- lines 195-201: except Exception: constant delay and retry,
        -- re-raise on the final attempt
        if attempt < 2 then
          execAux rest (attempt + 1) wt ((1 : ℚ) :: sleeps) (calls + 1)
        else
          ⟨.otherExc m, sleeps.reverse, calls + 1⟩

/-- `APIRateLimiter.execute_with_rate_limit(func)` under the environment
`envs` (one entry per loop iteration; only the first three are ever
consulted because `retry_attempts = 3`). -/
def execute_with_rate_limit {α : Type} (envs : List (AttemptEnv α)) : ExecTrace α :=
  execAux envs 0 none [] 0

/-! ## difflib (CPython standard library, used by backend/app/utils/matcher.py)

`NLPMatcher` computes similarities with `difflib.SequenceMatcher` and
`difflib.get_close_matches`.  That library code is embedded here from
its CPython source.  All strings involved are short ASCII words, so
`autojunk` never marks any character as junk (it only fires when the
second sequence has at least 200 elements) and the junk-extension loops
of `find_longest_match` never run.

A similarity ratio `2*M/T` is kept exactly as the pair `(2*M, T)`
(`Score`); comparisons are the exact rational comparisons by
cross-multiplication.  The Python code compares IEEE doubles, but each
double is `fl(2*M/T)` computed with a single rounding, and the rationals
`2*M/T` occurring here have tiny numerators and denominators, so
distinct values stay distinct and ordering is preserved after rounding;
the exact comparisons and the floating ones agree. -/

/-- Default character for out-of-range list indexing (never reached). -/
def c0 : Char := Char.ofNat 0

/-- Exact value of `difflib._calculate_ratio(matches, length)`:
the rational `m2 / tot`, where `tot = 0` encodes the value `1.0`. -/
structure Score where
  m2 : ℕ
  tot : ℕ
  deriving DecidableEq

def Score.normNum (x : Score) : ℕ := if x.tot == 0 then 1 else x.m2

def Score.normDen (x : Score) : ℕ := if x.tot == 0 then 1 else x.tot

/-- Exact comparison of two ratio values. -/
def Score.le (x y : Score) : Bool :=
  decide (x.normNum * y.normDen ≤ y.normNum * x.normDen)

def Score.lt (x y : Score) : Bool :=
  decide (x.normNum * y.normDen < y.normNum * x.normDen)

def Score.eqv (x y : Score) : Bool :=
  x.normNum * y.normDen == y.normNum * x.normDen

/-- Result triple of `SequenceMatcher.find_longest_match`. -/
structure FLM where
  besti : ℕ
  bestj : ℕ
  bestsize : ℕ
  deriving DecidableEq

/-- The `b2j` table: positions of character `c` in `b`, ascending. -/
def b2j (b : List Char) (c : Char) : List ℕ :=
  (List.range b.length).filter (fun j => b.getD j c0 == c)

/-- `j2len.get(j-1, 0)` lookup in the association list. -/
def j2get (m : List (ℕ × ℕ)) (j : ℕ) : ℕ :=
  ((m.find? (fun p => p.1 == j)).map Prod.snd).getD 0

/-- Body of the `for j in b2j.get(a[i], nothing)` loop of
`find_longest_match`: builds `newj2len` and updates the best block.
`k = j2len.get(j-1, 0) + 1`; the best block is replaced only on a
strictly larger `k`, so ties keep the earliest `(i, j)`. -/
def flmRow (oldJ2len : List (ℕ × ℕ)) (i : ℕ) (js : List ℕ) (best : FLM) :
    List (ℕ × ℕ) × FLM :=
  js.foldl
    (fun acc j =>
      let k := (if j == 0 then 0 else j2get oldJ2len (j - 1)) + 1
      ((j, k) :: acc.1,
        if acc.2.bestsize < k then ⟨i + 1 - k, j + 1 - k, k⟩ else acc.2))
    ([], best)

/-- Main loop of `find_longest_match` over `i in range(alo, ahi)`;
`if j < blo: continue` / `if j >= bhi: break` filters the ascending
position list to the window. -/
def flmMain (a b : List Char) (alo ahi blo bhi : ℕ) : FLM :=
  (((List.range ahi).drop alo).foldl
    (fun acc i =>
      let js := (b2j b (a.getD i c0)).filter
        (fun j => decide (blo ≤ j) && decide (j < bhi))
      flmRow acc.1 i js acc.2)
    ([], (⟨alo, blo, 0⟩ : FLM))).2

/-- First extension loop (`while besti > alo and bestj > blo and
a[besti-1] == b[bestj-1]`); the junk set is empty so the `not isbjunk`
guard always holds.  Fuel bounds the iteration count. -/
def extendLower (a b : List Char) (alo blo : ℕ) : ℕ → FLM → FLM
  | 0, st => st
  | fuel + 1, st =>
    if decide (alo < st.besti) && decide (blo < st.bestj) &&
        (a.getD (st.besti - 1) c0 == b.getD (st.bestj - 1) c0) then
      extendLower a b alo blo fuel ⟨st.besti - 1, st.bestj - 1, st.bestsize + 1⟩
    else st

/-- Second extension loop (`while besti+bestsize < ahi and ...`). -/
def extendUpper (a b : List Char) (ahi bhi : ℕ) : ℕ → FLM → FLM
  | 0, st => st
  | fuel + 1, st =>
    if decide (st.besti + st.bestsize < ahi) && decide (st.bestj + st.bestsize < bhi) &&
        (a.getD (st.besti + st.bestsize) c0 == b.getD (st.bestj + st.bestsize) c0) then
      extendUpper a b ahi bhi fuel ⟨st.besti, st.bestj, st.bestsize + 1⟩
    else st

/-- `SequenceMatcher.find_longest_match(alo, ahi, blo, bhi)` with an
empty junk set (the final two junk-extension loops of the source are
no-ops then). -/
def find_longest_match (a b : List Char) (alo ahi blo bhi : ℕ) : FLM :=
  extendUpper a b ahi bhi (ahi + bhi)
    (extendLower a b alo blo (ahi + bhi) (flmMain a b alo ahi blo bhi))

/-- Total size of all matching blocks, as summed by
`get_matching_blocks` (the queue recursion: take the longest match,
recurse left of it and right of it).  The fuel only needs to exceed the
window perimeter; every level of the recursion shrinks it. -/
def matchingTotal (a b : List Char) : ℕ → ℕ → ℕ → ℕ → ℕ → ℕ
  | 0, _, _, _, _ => 0
  | fuel + 1, alo, ahi, blo, bhi =>
    let m := find_longest_match a b alo ahi blo bhi
    if m.bestsize == 0 then 0
    else
      m.bestsize + matchingTotal a b fuel alo m.besti blo m.bestj +
        matchingTotal a b fuel (m.besti + m.bestsize) ahi (m.bestj + m.bestsize) bhi

/-- `SequenceMatcher.ratio()` for `a = seq1`, `b = seq2`:
`2 * (sum of matching block sizes) / (len(a) + len(b))`. -/
def seqRatio (a b : List Char) : Score :=
  ⟨2 * matchingTotal a b (a.length + b.length + 1) 0 a.length 0 b.length,
    a.length + b.length⟩

/-- Characters of `l` with duplicates removed, first occurrences kept. -/
def dedupChars (l : List Char) : List Char :=
  l.foldl (fun acc c => if acc.contains c then acc else acc ++ [c]) []

def countChar (l : List Char) (c : Char) : ℕ :=
  (l.filter (fun x => x == c)).length

/-- `SequenceMatcher.quick_ratio()`: multiset-intersection cardinality
over the two character multisets. -/
def quickRatio (a b : List Char) : Score :=
  ⟨2 * ((dedupChars a).foldl (fun s c => s + min (countChar a c) (countChar b c)) 0),
    a.length + b.length⟩

/-- `SequenceMatcher.real_quick_ratio()`. -/
def realQuickRatio (a b : List Char) : Score :=
  ⟨2 * min a.length b.length, a.length + b.length⟩

/-- Python string comparison (code-point lexicographic `<`). -/
def pyStrLt : List Char → List Char → Bool
  | [], [] => false
  | [], _ :: _ => true
  | _ :: _, [] => false
  | c :: cs, d :: ds =>
    if c.toNat < d.toNat then true
    else if d.toNat < c.toNat then false
    else pyStrLt cs ds

/-- Strict `>` on the `(score, string)` pairs that
`difflib.get_close_matches` accumulates (tuple comparison). -/
def scoredGt (p q : Score × List Char) : Bool :=
  Score.lt q.1 p.1 || (Score.eqv p.1 q.1 && pyStrLt q.2 p.2)

/-- `difflib.get_close_matches(word, possibilities, n=1, cutoff)`:
filter by the three ratio bounds, then `heapq.nlargest(1, ...)`, which
is `max` over `(ratio, possibility)` tuples, keeping the first of equal
tuples.  `a = possibility`, `b = word` (`set_seq1(x)` / `set_seq2(word)`). -/
def get_close_matches1 (word : List Char) (possibilities : List (List Char))
    (cutoff : Score) : Option (List Char) :=
  let result := (possibilities.filter (fun x =>
      Score.le cutoff (realQuickRatio x word) &&
      Score.le cutoff (quickRatio x word) &&
      Score.le cutoff (seqRatio x word))).map (fun x => (seqRatio x word, x))
  match result with
  | [] => none
  | p :: ps => some (ps.foldl (fun best q => if scoredGt q best then q else best) p).2

/-! ## NLPMatcher (backend/app/utils/matcher.py) -/

/-- `str.lower()` on the character list (ASCII inputs). -/
def lowerChars (l : List Char) : List Char := l.map Char.toLower

/-- Python whitespace, the character class removed by `str.strip()`. -/
def isPySpace (c : Char) : Bool :=
  c.toNat == 32 || c.toNat == 9 || c.toNat == 10 ||
    c.toNat == 13 || c.toNat == 11 || c.toNat == 12

/-- `str.strip()` on the character list. -/
def pyStrip (l : List Char) : List Char :=
  ((l.dropWhile isPySpace).reverse.dropWhile isPySpace).reverse

/-- Character class `[a-zA-Z]` of the regex in `suggest_correction`. -/
def isAsciiAlphaChar (c : Char) : Bool :=
  (65 ≤ c.toNat && c.toNat ≤ 90) || (97 ≤ c.toNat && c.toNat ≤ 122)

namespace NLPMatcher

def COMMON_COMPANY_WORDS : List String := [
  "apple", "microsoft", "google", "amazon", "tesla", "meta", "nvidia",
  "berkshire", "hathaway", "johnson", "jpmorgan", "chase", "visa",
  "walmart", "mastercard", "home", "depot", "disney", "nike",
  "coca", "cola", "pepsico", "intel", "cisco", "oracle", "ibm",
  "adobe", "salesforce", "netflix", "spotify", "zoom", "snap",
  "twitter", "facebook", "alphabet", "verizon", "att", "comcast",
  "pfizer", "merck", "united", "health", "anthem", "cigna",
  "goldman", "sachs", "morgan", "stanley", "bank", "america",
  "wells", "fargo", "citigroup", "exxon", "mobil", "chevron"]

/-- `NLPMatcher.similarity_score(a, b)`. -/
def similarity_score (a b : String) : Score :=
  seqRatio (lowerChars a.toList) (lowerChars b.toList)

/-- `NLPMatcher.find_best_match(word, dictionary, min_similarity)`:
fuzzy lookup through `get_close_matches`, then recovery of the
dictionary entry whose lowering equals the match. -/
def find_best_match (word : String) (dictionary : List String)
    (min_similarity : Score) : Option String :=
  if pyStrip word.toList == [] then none
  else
    let word_lower := pyStrip (lowerChars word.toList)
    match get_close_matches1 word_lower
        (dictionary.map (fun w => lowerChars w.toList)) min_similarity with
    | none => none
    | some matched =>
      match dictionary.find? (fun dw => lowerChars dw.toList == matched) with
      | some dict_word => some dict_word
      | none => none

/-- `NLPMatcher.suggest_correction(word)`: strip, drop non-alphabetic
characters, then `find_best_match` against the fixed vocabulary with
cutoff `0.6`. -/
def suggest_correction (word : String) : Option String :=
  if pyStrip word.toList == [] then none
  else
    let cleaned := (pyStrip word.toList).filter isAsciiAlphaChar
    if cleaned == [] then none
    else find_best_match (String.mk cleaned) COMMON_COMPANY_WORDS ⟨6, 10⟩

/-- `NLPMatcher.get_corrected_word(original_word)`. -/
def get_corrected_word (original_word : String) : Option String :=
  suggest_correction original_word

/-- Modelled from the spec: the suggestion rule as §4.3 words it, with
ties among maximal-scoring vocabulary entries broken by vocabulary
iteration order (first maximal match).  Everything else (cleaning,
case-insensitive ratio, cutoff 0.6) is kept identical to
`suggest_correction`, so the two definitions can be compared. -/
def suggestAsSpecified (word : String) : Option String :=
  if pyStrip word.toList == [] then none
  else
    let cleaned := (pyStrip word.toList).filter isAsciiAlphaChar
    if cleaned == [] then none
    else
      let query := lowerChars cleaned
      let scored := COMMON_COMPANY_WORDS.map
        (fun w => (seqRatio (lowerChars w.toList) query, w))
      match scored.filter (fun p => Score.le ⟨6, 10⟩ p.1) with
      | [] => none
      | p :: ps =>
        some (ps.foldl (fun best q => if Score.lt best.1 q.1 then q else best) p).2

end NLPMatcher

/-! ## FinnhubService.lookup_symbol (backend/app/services/finnhub_service.py)

The external Finnhub client behind `_make_api_call("symbol_lookup", w)`
is abstracted as a function from the searched word to an outcome:
either the decoded response (`result` list of search items), an
`APIRateLimitException` escaping `execute_with_rate_limit`, or any
other failure, which `_make_api_call` wraps into
`ServiceUnavailableException`. -/

/-- One entry of the `result` list of a symbol_lookup response; absent
JSON keys are `none` (`dict.get` returns Python None). -/
structure SearchItem where
  symbol : Option String
  description : Option String
  displaySymbol : Option String
  name : Option String
  deriving DecidableEq

inductive ApiOutcome where
  /-- the call returned a response with the given `result` list -/
  | ok (items : List SearchItem)
  /-- `APIRateLimitException` raised by the rate-limited call -/
  | rateLimited
  /-- `ServiceUnavailableException` raised by `_make_api_call` -/
  | svcError
  deriving DecidableEq

/-- Exceptions that can escape `lookup_symbol`. -/
inductive PyExc where
  | validation
  | symbolNotFound
  | apiRateLimit
  deriving DecidableEq

/-- Python runtime value, as far as `get_symbol` inspects it: the
`isinstance(result, str)` test needs to know strings from tuples. -/
inductive PyValue where
  | pynone
  | pystr (s : String)
  | tuple2 (a b : PyValue)
  deriving DecidableEq

def isinstance_str : PyValue → Bool
  | .pystr _ => true
  | _ => false

def optToPy : Option String → PyValue
  | none => .pynone
  | some s => .pystr s

/-- Python truthiness of an optional string: None and the empty string
are falsy. -/
def truthyOpt : Option String → Bool
  | none => false
  | some s => !(s == "")

/-- The description extraction of lookup_symbol lines 162-173:
`first_result.get("description") or first_result.get("displaySymbol")
or first_result.get("name") or ""`, then stripped when truthy. -/
def extractDesc (it : SearchItem) : String :=
  let d := if truthyOpt it.description then it.description
    else if truthyOpt it.displaySymbol then it.displaySymbol
    else if truthyOpt it.name then it.name
    else some ""
  if truthyOpt d then String.mk (pyStrip (d.getD "").toList) else ""

/-- Python `company_name.split(" ")[0]`. -/
def firstWord (s : String) : String :=
  String.mk (s.toList.takeWhile (fun c => !(c.toNat == 32)))

/-- The `for attempt_num in range(1, max_attempts + 1)` loop of
`lookup_symbol`.  `left` is the number of iterations still available
(the `left = 0` fallthrough is the defensive raise at line 223);
`attempt` is `attempt_num`.  On a successful response the function
returns the pair `(found_symbol, found_description)` — a tuple. -/
def lookupLoop (api : String → ApiOutcome) (original : String) :
    ℕ → ℕ → Except PyExc PyValue
  | 0, _ => .error .symbolNotFound
  | left + 1, attempt =>
    let isLast := left == 0
    -- which word this attempt searches; `none` means the attempt is
    -- skipped (no usable NLP correction)
    let searchWord :=
      if attempt == 1 then some original
      else
        match NLPMatcher.get_corrected_word original with
        | some corrected =>
          if !(lowerChars corrected.toList == lowerChars original.toList) then
            some corrected
          else none
        | none => none
    match searchWord with
    | none =>
      -- lines 136-149: skip, or raise SymbolNotFoundException when last
      if isLast then .error .symbolNotFound
      else lookupLoop api original left (attempt + 1)
    | some w =>
      match api w with
      | .ok items =>
        match items with
        | [] =>
          -- lines 178-192: no results
          if isLast then .error .symbolNotFound
          else lookupLoop api original left (attempt + 1)
        | first :: _ =>
          -- lines 156-177: return found_symbol, found_description
          .ok (.tuple2 (optToPy first.symbol) (.pystr (extractDesc first)))
      | .rateLimited =>
        -- lines 194-197: rate limit is raised immediately
        .error .apiRateLimit
      | .svcError =>
        -- lines 207-220: unexpected error, retry unless last
        if isLast then .error .symbolNotFound
        else lookupLoop api original left (attempt + 1)

/-- `FinnhubService.lookup_symbol(company_name)` with `max_attempts = 3`. -/
def lookup_symbol (api : String → ApiOutcome) (company_name : String) :
    Except PyExc PyValue :=
  let cn := pyStrip company_name.toList
  if cn == [] then .error .validation
  else lookupLoop api (firstWord (String.mk cn)) 3 1

/-! ## EnrichmentService (backend/app/services/enrichment_service.py) -/

/-- `EnrichmentService.get_symbol(company_name)` (lines 33-57): search
the first word, then `if isinstance(result, str): return result` — but
`lookup_symbol` returns a `(symbol, description)` tuple, never a `str`;
every exception is swallowed into None. -/
def get_symbol (api : String → ApiOutcome) (company_name : String) :
    Option String :=
  let symbol := firstWord company_name
  match lookup_symbol api symbol with
  | .ok result => if isinstance_str result then
      (match result with
        | .pystr s => some s
        | _ => none)
    else none
  | .error _ => none

/-- `EnrichmentService.process_row(idx, company_name)` (lines 59-87),
without the `time.sleep(0.5)` pacing (pure time).  Row values read from
the CSV are strings, so the `isinstance(company_name, str)` guard holds. -/
def process_row (api : String → ApiOutcome) (idx : ℕ) (company_name : String) :
    ℕ × Option String :=
  if !(pyStrip company_name.toList == []) then
    let symbol := get_symbol api company_name
    match symbol with
    | some s => (idx, some s)
    | none => (idx, none)
  else (idx, none)

/-- `SymbolResponse` fields consulted by the claims. -/
structure SymbolResponse where
  company_name : String
  symbol : Option String
  success : Bool
  confidence : ℚ
  deriving DecidableEq

/-- `EnrichmentService.enrich_single_company(company_name)` (lines
89-141): binary confidence, keyed on the truthiness of the symbol. -/
def enrich_single_company (api : String → ApiOutcome) (company_name : String) :
    SymbolResponse :=
  let symbol := get_symbol api company_name
  if truthyOpt symbol then
    ⟨company_name, symbol, true, 1⟩
  else
    ⟨company_name, none, false, 0⟩

/-- One CSV row: the `Name` cell and the `Symbol` cell (`none` models a
pandas NaN / missing value). -/
structure Row where
  name : String
  symbol : Option String
  deriving DecidableEq

/-- Row selection of lines 197-199: `pd.isna(row["Symbol"]) or
row["Symbol"] == ""`, then a nonblank name. -/
def symbolMissing : Option String → Bool
  | none => true
  | some s => s == ""

/-- Statistics of `EnrichmentResult` (message, success rate and wall
time elided: the claims speak about the three counters). -/
structure EnrichmentResult where
  rows_processed : ℕ
  rows_updated : ℕ
  rows_failed : ℕ
  deriving DecidableEq

/-- Processing of one row inside a page (lines 196-207): a selected row
gets its Symbol cell overwritten with the looked-up symbol (None when
the lookup failed), `rows_processed` incremented, and `rows_updated`
incremented when the symbol is truthy; an unselected row is untouched.
Returns (updated row, processed delta, updated delta). -/
def enrichRow (api : String → ApiOutcome) (row : Row) : Row × ℕ × ℕ :=
  if symbolMissing row.symbol && !(pyStrip row.name.toList == []) then
    let r := process_row api 0 row.name
    ({ row with symbol := r.2 }, 1, if truthyOpt r.2 then 1 else 0)
  else (row, 0, 0)

/-- One page: every selected row of the slice is submitted and every
future merged back (the merge is order-independent: each task writes
only its own row index, and the counters commute), so the page is
processed row by row. -/
def enrichChunk (api : String → ApiOutcome) : List Row → List Row × ℕ × ℕ
  | [] => ([], 0, 0)
  | row :: rest =>
    let r := enrichRow api row
    let rs := enrichChunk api rest
    (r.1 :: rs.1, r.2.1 + rs.2.1, r.2.2 + rs.2.2)

/-- Pagination worker: cuts off chunks of `ps` rows; `fuel` bounds the
number of pages (any fuel at least the row count is enough, every page
removes at least one row when `ps` is positive). -/
def chunksAux (ps : ℕ) : ℕ → List Row → List (List Row)
  | 0, _ => []
  | _, [] => []
  | fuel + 1, row :: rest =>
    ((row :: rest).take ps) :: chunksAux ps fuel ((row :: rest).drop ps)

/-- `df.iloc[page*page_size : (page+1)*page_size]` pagination: the row
list cut into consecutive chunks of `ps` rows. -/
def chunksList (ps : ℕ) (rows : List Row) : List (List Row) :=
  if ps == 0 then [] else chunksAux ps rows.length rows

/-- The `for page in range(total_pages)` loop: pages processed in
order, statistics accumulated across pages (never reset). -/
def enrichPages (api : String → ApiOutcome) : List (List Row) → List Row × ℕ × ℕ
  | [] => ([], 0, 0)
  | chunk :: rest =>
    let c := enrichChunk api chunk
    let cs := enrichPages api rest
    (c.1 ++ cs.1, c.2.1 + cs.2.1, c.2.2 + cs.2.2)

/-- `EnrichmentService.enrich_csv_file` (lines 143-241) over the parsed
row list, parameterized by the page size.  An empty input short-circuits
with zero statistics (lines 160-169); a zero page size corresponds to
the `math.ceil` division error swallowed at lines 230-241, which also
reports zero statistics.  Returns the final row set and the statistics;
`rows_failed = rows_processed - rows_updated` (line 225). -/
def enrich_csv_file (api : String → ApiOutcome) (page_size : ℕ)
    (rows : List Row) : List Row × EnrichmentResult :=
  if rows.isEmpty then (rows, ⟨0, 0, 0⟩)
  else
    let r := enrichPages api (chunksList page_size rows)
    (r.1, ⟨r.2.1, r.2.2, r.2.1 - r.2.2⟩)

/-- Statistics accumulated after the first `k` pages (used to state
that the counters grow monotonically across pages). -/
def statsUpTo (api : String → ApiOutcome) (page_size : ℕ) (rows : List Row)
    (k : ℕ) : ℕ × ℕ :=
  (enrichPages api ((chunksList page_size rows).take k)).2

/-! ## Concrete inputs for the spec's batch scenario -/

/-- Lookup capability of the scenario: the term Apple finds the match
AAPL, every other term finds nothing. -/
def appleScenarioApi : String → ApiOutcome := fun term =>
  if term == "Apple" then
    .ok [⟨some ("AAPL"), some ("Apple Inc"), some ("AAPL"), some ("Apple Inc")⟩]
  else .ok []

/-- Scenario input rows. -/
def appleScenarioRows : List Row :=
  [⟨"Apple Inc", some ("")⟩, ⟨"Microsoft Corp", some ("MSFT")⟩]

/-! ## Helper lemmas: token bucket -/

theorem refill_bounds (b : TokenBucket) (now : ℚ) (hC : 0 < b.capacity)
    (hr : 0 ≤ b.refill_rate) (h0 : 0 ≤ b.tokens) (ht : b.last_refill ≤ now) :
    0 ≤ (b.refill now).tokens ∧ (b.refill now).tokens ≤ b.capacity := by
  unfold TokenBucket.refill
  refine ⟨le_min hC.le ?_, min_le_left _ _⟩
  have : 0 ≤ (now - b.last_refill) * b.refill_rate :=
    mul_nonneg (by linarith) hr
  linarith

theorem apply_bounds (b : TokenBucket) (op : BucketOp)
    (hC : 0 < b.capacity) (hr : 0 ≤ b.refill_rate)
    (h0 : 0 ≤ b.tokens) (ht : b.last_refill ≤ op.now) :
    (op.apply b).capacity = b.capacity ∧ (op.apply b).refill_rate = b.refill_rate ∧
      (op.apply b).last_refill = op.now ∧
      0 ≤ (op.apply b).tokens ∧ (op.apply b).tokens ≤ b.capacity := by
  obtain ⟨hge, hle⟩ := refill_bounds b op.now hC hr h0 ht
  cases op with
  | refill t => exact ⟨rfl, rfl, rfl, hge, hle⟩
  | consume t n =>
    simp only [BucketOp.apply, TokenBucket.consume]
    by_cases hc : (n : ℚ) ≤ (b.refill t).tokens
    · simp only [hc, if_pos]
      refine ⟨rfl, rfl, rfl, by linarith, ?_⟩
      have hn : (0 : ℚ) ≤ (n : ℚ) := Nat.cast_nonneg n
      simp only [BucketOp.now] at ht hge hle ⊢
      linarith
    · simp only [hc, if_neg, not_false_iff]
      exact ⟨rfl, rfl, rfl, hge, hle⟩

theorem runOps_bounds (C r : ℚ) (hC : 0 < C) (hr : 0 ≤ r) :
    ∀ (ops : List BucketOp) (b : TokenBucket), b.capacity = C → b.refill_rate = r →
      0 ≤ b.tokens → b.tokens ≤ C → timesOK b.last_refill ops = true →
      ∀ s ∈ runOps b ops, 0 ≤ s.tokens ∧ s.tokens ≤ C := by
  intro ops
  induction ops with
  | nil => intro b _ _ _ _ _ s hs; simp [runOps] at hs
  | cons op rest ih =>
    intro b hcap hrate h0 h1 ht s hs
    simp only [timesOK, Bool.and_eq_true, decide_eq_true_eq] at ht
    obtain ⟨hnow, ht2⟩ := ht
    obtain ⟨hc', hr', hl', hge, hle⟩ :=
      apply_bounds b op (hcap ▸ hC) (hrate ▸ hr) h0 hnow
    simp only [runOps, List.mem_cons] at hs
    rcases hs with rfl | hs
    · exact ⟨hge, hcap ▸ hle⟩
    · exact ih (op.apply b) (hc'.trans hcap) (hr'.trans hrate) hge
        (hle.trans_eq hcap) (by rw [hl']; exact ht2) s hs

theorem refill_refill (b : TokenBucket) (t1 t2 : ℚ)
    (hr : 0 ≤ b.refill_rate) (h12 : t1 ≤ t2) :
    (b.refill t1).refill t2 = b.refill t2 := by
  unfold TokenBucket.refill
  simp only [TokenBucket.mk.injEq, and_true, true_and]
  rcases le_or_lt (b.tokens + (t1 - b.last_refill) * b.refill_rate) b.capacity with hle | hlt
  · rw [min_eq_right hle]
    ring_nf
  · have hstep : 0 ≤ (t2 - t1) * b.refill_rate := mul_nonneg (by linarith) hr
    rw [min_eq_left hlt.le]
    rw [min_eq_left (by linarith), min_eq_left (by nlinarith)]

/-! ## Claim theorems: rate limiter -/

/-- Claim C6. Token bucket bounds invariant: for a bucket constructed
with capacity C > 0 and refill rate r > 0 and any sequence of consume
and refill operations at nondecreasing observation instants, the tokens
field stays within [0, C] at every observation point; moreover a refill
changes tokens exactly to min C (tokens + elapsed * rate), and a
consume decreases the refilled token count by exactly n on success and
leaves it unchanged on failure. -/
theorem token_bucket_bounds_invariant (C r t0 : ℚ) (hC : 0 < C) (hr : 0 < r)
    (ops : List BucketOp) (ht : timesOK t0 ops = true) :
    (∀ s ∈ runOps (TokenBucket.init C r t0) ops, 0 ≤ s.tokens ∧ s.tokens ≤ C) ∧
      (∀ (b : TokenBucket) (now : ℚ),
        (b.refill now).tokens =
          min b.capacity (b.tokens + (now - b.last_refill) * b.refill_rate)) ∧
      (∀ (b : TokenBucket) (now : ℚ) (n : ℕ),
        ((b.consume now n).2 = true →
          (b.consume now n).1.tokens = (b.refill now).tokens - (n : ℚ)) ∧
        ((b.consume now n).2 = false →
          (b.consume now n).1.tokens = (b.refill now).tokens)) := by
  refine ⟨?_, fun b now => rfl, ?_⟩
  · exact runOps_bounds C r hC hr.le ops (TokenBucket.init C r t0) rfl rfl
      hC.le le_rfl ht
  · intro b now n
    constructor <;> intro h
    · by_cases hc : (n : ℚ) ≤ (b.refill now).tokens
      · simp [TokenBucket.consume, hc]
      · exact absurd h (by simp [TokenBucket.consume, hc])
    · by_cases hc : (n : ℚ) ≤ (b.refill now).tokens
      · exact absurd h (by simp [TokenBucket.consume, hc])
      · simp [TokenBucket.consume, hc]

/-- Witness for C6 at a concrete bucket and operation sequence. -/
theorem token_bucket_bounds_invariant_witness :
    ((0 : ℚ) < 2 ∧ (0 : ℚ) < 1 ∧
      timesOK 0 [.consume 0 1, .refill 1, .consume 1 3] = true) ∧
      ∀ s ∈ runOps (TokenBucket.init 2 1 0) [.consume 0 1, .refill 1, .consume 1 3],
        0 ≤ s.tokens ∧ s.tokens ≤ 2 :=
  ⟨⟨by decide, by decide, by decide⟩,
    (token_bucket_bounds_invariant 2 1 0 (by decide) (by decide)
      [.consume 0 1, .refill 1, .consume 1 3] (by decide)).1⟩

/-- Claim C7. Contract of get_wait_time: for a bucket with positive
refill rate, the returned duration is 0 when n tokens are available
after refilling to the current instant and (n - tokens) / refill_rate
otherwise; and the call is observably non-mutating: although _refill
rewrites the tokens and last_refill fields, every public operation
refills before reading, and refilling the post-call state at any later
instant gives exactly the state the pre-call bucket would have — the
two states cannot be distinguished by any subsequent observation. -/
theorem get_wait_time_contract (b : TokenBucket) (now : ℚ) (n : ℕ)
    (hr : 0 < b.refill_rate) :
    ((b.get_wait_time now n).2 =
      if (n : ℚ) ≤ (b.refill now).tokens then 0
      else ((n : ℚ) - (b.refill now).tokens) / b.refill_rate) ∧
      ∀ t : ℚ, now ≤ t → ((b.get_wait_time now n).1).refill t = b.refill t := by
  constructor
  · simp only [TokenBucket.get_wait_time]
    split <;> simp_all [TokenBucket.refill]
  · intro t htt
    have h1 : (b.get_wait_time now n).1 = b.refill now := by
      simp only [TokenBucket.get_wait_time]
      split <;> rfl
    rw [h1, refill_refill b now t hr.le htt]

/-- Witness for C7 at a concrete bucket (capacity 10, rate 2, 3 tokens
left, refill due since instant 0, queried at instant 1 for 6 tokens). -/
theorem get_wait_time_contract_witness :
    (0 : ℚ) < (TokenBucket.mk 10 2 3 0).refill_rate ∧
      (((TokenBucket.mk 10 2 3 0).get_wait_time 1 6).2 =
        if (6 : ℚ) ≤ ((TokenBucket.mk 10 2 3 0).refill 1).tokens then 0
        else ((6 : ℚ) - ((TokenBucket.mk 10 2 3 0).refill 1).tokens) /
          (TokenBucket.mk 10 2 3 0).refill_rate) ∧
      ∀ t : ℚ, (1 : ℚ) ≤ t →
        (((TokenBucket.mk 10 2 3 0).get_wait_time 1 6).1).refill t =
          (TokenBucket.mk 10 2 3 0).refill t := by
  refine ⟨by decide, ?_⟩
  have h := get_wait_time_contract (TokenBucket.mk 10 2 3 0) 1 6 (by decide)
  simpa using h

/-- Claim C10. A bucket name that was never added disables rate
limiting: RateLimiter.consume allows the request (returns True, no
state change) and RateLimiter.wait_if_needed returns at once (sleep
duration 0, no state change). -/
theorem unknown_bucket_allows (buckets : List (String × TokenBucket))
    (name : String) (now : ℚ) (n : ℕ)
    (h : lookupBucket buckets name = none) :
    RateLimiter.consume buckets name now n = (buckets, true) ∧
      RateLimiter.wait_if_needed buckets name now n = (buckets, 0) := by
  unfold RateLimiter.consume RateLimiter.wait_if_needed
  rw [h]
  exact ⟨rfl, rfl⟩

/-- Witness for C10: the empty bucket table and the name api. -/
theorem unknown_bucket_allows_witness :
    lookupBucket [] "api" = none ∧
      (RateLimiter.consume [] "api" 0 1 = ([], true) ∧
        RateLimiter.wait_if_needed [] "api" 0 1 = ([], 0)) :=
  ⟨rfl, unknown_bucket_allows [] "api" 0 1 rfl⟩

/-! ## Claim theorems: execute_with_rate_limit retry protocol -/

/-- Claim C3 counterexample. A wrapped operation failing with a
non-rate-limit (generic) error on each of the three attempts: the code
sleeps the constant base delay of 1 s between attempts (not the claimed
1 * 2 ^ attempt, which would be the trace 1 then 2) and re-raises the
last generic error itself (line 201), not an APIRateLimitException. -/
theorem retry_generic_failure_counterexample :
    (execute_with_rate_limit ([⟨0, true, 0, .genericExc ("boom")⟩,
        ⟨0, true, 0, .genericExc ("boom")⟩,
        ⟨0, true, 0, .genericExc ("boom")⟩] : List (AttemptEnv ℕ))).sleeps = [1, 1] ∧
      (execute_with_rate_limit ([⟨0, true, 0, .genericExc ("boom")⟩,
        ⟨0, true, 0, .genericExc ("boom")⟩,
        ⟨0, true, 0, .genericExc ("boom")⟩] : List (AttemptEnv ℕ))).outcome =
        .otherExc ("boom") ∧
      ∀ h : Option ℤ,
        (execute_with_rate_limit ([⟨0, true, 0, .genericExc ("boom")⟩,
          ⟨0, true, 0, .genericExc ("boom")⟩,
          ⟨0, true, 0, .genericExc ("boom")⟩] : List (AttemptEnv ℕ))).outcome ≠
          .apiRateLimit h := by
  refine ⟨?_, ?_, ?_⟩ <;> simp [execute_with_rate_limit, execAux]

/-- Claim C3 as amended. For every operation failing with a generic
(non-rate-limit) error on each attempt, execute_with_rate_limit sleeps
the constant base delay of 1 s between attempts (lines 195-199) and,
after exhausting the 3-attempt budget, re-raises the final generic
failure unchanged, making 3 calls in total. -/
theorem retry_generic_failure_protocol (e0 e1 e2 : String) :
    execute_with_rate_limit ([⟨0, true, 0, .genericExc e0⟩,
        ⟨0, true, 0, .genericExc e1⟩,
        ⟨0, true, 0, .genericExc e2⟩] : List (AttemptEnv ℕ)) =
      ⟨.otherExc e2, [1, 1], 3⟩ := by
  simp [execute_with_rate_limit, execAux]

/-- Claim C4 counterexample. A wrapped operation that raises a
rate-limit error on every attempt: the code does NOT propagate the
first such error immediately; it invokes the operation three times,
sleeping the exponential backoff 1 * 2 ^ attempt (1 s then 2 s, lines
189-192) in between, and only the last error propagates. -/
theorem retry_ratelimit_retry_counterexample :
    (execute_with_rate_limit ([⟨0, true, 0, .rateLimitExc (some 7)⟩,
        ⟨0, true, 0, .rateLimitExc (some 7)⟩,
        ⟨0, true, 0, .rateLimitExc (some 7)⟩] : List (AttemptEnv ℕ))).funcCalls = 3 ∧
      (execute_with_rate_limit ([⟨0, true, 0, .rateLimitExc (some 7)⟩,
        ⟨0, true, 0, .rateLimitExc (some 7)⟩,
        ⟨0, true, 0, .rateLimitExc (some 7)⟩] : List (AttemptEnv ℕ))).funcCalls ≠ 1 ∧
      (execute_with_rate_limit ([⟨0, true, 0, .rateLimitExc (some 7)⟩,
        ⟨0, true, 0, .rateLimitExc (some 7)⟩,
        ⟨0, true, 0, .rateLimitExc (some 7)⟩] : List (AttemptEnv ℕ))).sleeps = [1, 2] := by
  refine ⟨?_, ?_, ?_⟩ <;> simp [execute_with_rate_limit, execAux]

/-- Claim C4 as amended. A rate-limit error raised by the wrapped
operation is retried with exponential backoff (sleep 1 * 2 ^ attempt
between attempts), the operation being invoked on all three attempts;
the rate-limit error propagates only after the final attempt. -/
theorem retry_ratelimit_backoff_protocol (h0 h1 h2 : Option ℤ) :
    execute_with_rate_limit ([⟨0, true, 0, .rateLimitExc h0⟩,
        ⟨0, true, 0, .rateLimitExc h1⟩,
        ⟨0, true, 0, .rateLimitExc h2⟩] : List (AttemptEnv ℕ)) =
      ⟨.apiRateLimit h2, [1, 2], 3⟩ := by
  simp [execute_with_rate_limit, execAux]

/-- Claim C5. When token consumption succeeds on the first two attempts
(each followed by a generic failure of the operation) and then fails on
the final attempt, line 182 reads the local wait_time, which no earlier
iteration ever assigned (line 176 runs only in the non-final
consume-failure branch): the call dies with an UnboundLocalError
instead of the typed APIRateLimitException the claim requires. -/
theorem final_consume_unbound_wait_time :
    (execute_with_rate_limit ([⟨0, true, 0, .genericExc ("first")⟩,
        ⟨0, true, 0, .genericExc ("second")⟩,
        ⟨0, false, 5, .ok 0⟩] : List (AttemptEnv ℕ))).outcome =
      .unboundLocalWaitTime ∧
      ∀ h : Option ℤ,
        (execute_with_rate_limit ([⟨0, true, 0, .genericExc ("first")⟩,
          ⟨0, true, 0, .genericExc ("second")⟩,
          ⟨0, false, 5, .ok 0⟩] : List (AttemptEnv ℕ))).outcome ≠
          .apiRateLimit h := by
  refine ⟨?_, ?_⟩ <;> simp [execute_with_rate_limit, execAux]

/-! ## Claim theorems: fuzzy correction -/

/-- Claim C8 counterexample. The claim's tie rule (first maximal match
in vocabulary iteration order) disagrees with the code on the input
coda: coca and cola score the same similarity 0.75 against coda, coca
precedes cola in COMMON_COMPANY_WORDS, yet suggest_correction returns
cola — heapq.nlargest compares (score, word) tuples, so equal scores
are broken toward the lexicographically greater word. -/
theorem suggest_tie_break_counterexample :
    seqRatio (lowerChars ("coca".toList)) (lowerChars ("coda".toList)) =
      seqRatio (lowerChars ("cola".toList)) (lowerChars ("coda".toList)) ∧
      NLPMatcher.suggestAsSpecified ("coda") = some ("coca") ∧
      NLPMatcher.suggest_correction ("coda") = some ("cola") ∧
      NLPMatcher.suggest_correction ("coda") ≠ NLPMatcher.suggestAsSpecified ("coda") := by
  refine ⟨by decide, by decide, by decide, by decide⟩

/-- Claim C8 as amended. suggest_correction is a pure deterministic
function (it is a Lean function of its argument alone); on Gogle it
returns google (similarity 10/11 ≥ 0.6 against the vocabulary entry
google); on Zzzzqq it returns none; ties among maximal-scoring
vocabulary entries are broken toward the lexicographically greater
word, as witnessed on coda where equal-scoring coca and cola resolve
to cola. -/
theorem suggest_correction_determinism :
    NLPMatcher.suggest_correction ("Gogle") = some ("google") ∧
      NLPMatcher.suggest_correction ("Zzzzqq") = none ∧
      seqRatio (lowerChars ("google".toList)) (lowerChars ("gogle".toList)) = ⟨10, 11⟩ ∧
      (seqRatio (lowerChars ("coca".toList)) (lowerChars ("coda".toList)) =
        seqRatio (lowerChars ("cola".toList)) (lowerChars ("coda".toList)) ∧
        pyStrLt ("coca".toList) ("cola".toList) = true ∧
        NLPMatcher.suggest_correction ("coda") = some ("cola")) := by
  refine ⟨by decide, by decide, by decide, by decide, by decide, by decide⟩

/-! ## Claim theorems: batch enrichment -/

/-- Claim C1. The spec's batch scenario fails on the code: with the
scenario rows and a lookup that finds AAPL for the term Apple, the
selected first row does get processed, but get_symbol discards the
(symbol, description) tuple returned by lookup_symbol (its
isinstance(result, str) test can never hold for a tuple), so the
Symbol cell is overwritten with None and the run reports
rows_processed = 1, rows_updated = 0, rows_failed = 1 instead of the
claimed AAPL / 1 / 1 / 0.  The second row is untouched as claimed. -/
theorem enrich_scenario_apple_bug :
    enrich_csv_file appleScenarioApi 10 appleScenarioRows =
      ([⟨"Apple Inc", none⟩, ⟨"Microsoft Corp", some ("MSFT")⟩], ⟨1, 0, 1⟩) := by
  decide

/-! ## Helper lemmas: every lookup_symbol success is a tuple -/

theorem lookupLoop_ok_not_str (api : String → ApiOutcome) (original : String) :
    ∀ (left attempt : ℕ) (v : PyValue),
      lookupLoop api original left attempt = .ok v → isinstance_str v = false := by
  intro left
  induction left with
  | zero => intro attempt v h; simp [lookupLoop] at h
  | succ m ih =>
    intro attempt v h
    simp only [lookupLoop] at h
    split at h
    · -- the attempt is skipped
      split at h
      · exact absurd h (by simp)
      · exact ih _ _ h
    · -- the attempt searches a word w
      rename_i w _
      cases hapi : api w with
      | ok items =>
        simp only [hapi] at h
        cases items with
        | nil =>
          by_cases hm : (m == 0) = true
          · rw [if_pos hm] at h; exact absurd h (by simp)
          · rw [if_neg hm] at h; exact ih _ _ h
        | cons first rest =>
          simp only [Except.ok.injEq] at h
          subst h
          rfl
      | rateLimited => simp only [hapi] at h; exact absurd h (by simp)
      | svcError =>
        simp only [hapi] at h
        by_cases hm : (m == 0) = true
        · rw [if_pos hm] at h; exact absurd h (by simp)
        · rw [if_neg hm] at h; exact ih _ _ h

theorem get_symbol_eq_none (api : String → ApiOutcome) (company_name : String) :
    get_symbol api company_name = none := by
  unfold get_symbol
  cases h : lookup_symbol api (firstWord company_name) with
  | error e => simp [h]
  | ok v =>
    have hv : isinstance_str v = false := by
      simp only [lookup_symbol] at h
      split at h
      · exact absurd h (by simp)
      · exact lookupLoop_ok_not_str api _ 3 1 v h
    simp [h, hv]

theorem process_row_symbol_none (api : String → ApiOutcome) (idx : ℕ)
    (company_name : String) : (process_row api idx company_name).2 = none := by
  unfold process_row
  split
  · simp [get_symbol_eq_none]
  · rfl

theorem enrichRow_no_update (api : String → ApiOutcome) (row : Row) :
    (enrichRow api row).2.2 = 0 := by
  unfold enrichRow
  split
  · simp [process_row_symbol_none, truthyOpt]
  · rfl

theorem enrichChunk_no_update (api : String → ApiOutcome) (chunk : List Row) :
    (enrichChunk api chunk).2.2 = 0 := by
  induction chunk with
  | nil => rfl
  | cons row rest ih => simp [enrichChunk, enrichRow_no_update, ih]

theorem enrichPages_no_update (api : String → ApiOutcome) (cs : List (List Row)) :
    (enrichPages api cs).2.2 = 0 := by
  induction cs with
  | nil => rfl
  | cons c rest ih => simp [enrichPages, enrichChunk_no_update, ih]

/-- Claim C2. Because lookup_symbol returns a (symbol, description)
tuple (or raises), the isinstance(result, str) test in get_symbol can
never hold, so get_symbol returns None for every company name and every
behavior of the lookup capability; consequently enrich_single_company
always reports success = False with confidence 0.0, and enrich_csv_file
never counts a single updated row. -/
theorem get_symbol_always_none :
    (∀ (api : String → ApiOutcome) (company_name : String),
      get_symbol api company_name = none) ∧
      (∀ (api : String → ApiOutcome) (company_name : String),
        (enrich_single_company api company_name).success = false ∧
          (enrich_single_company api company_name).confidence = 0) ∧
      ∀ (api : String → ApiOutcome) (page_size : ℕ) (rows : List Row),
        (enrich_csv_file api page_size rows).2.rows_updated = 0 := by
  refine ⟨fun api n => get_symbol_eq_none api n, ?_, ?_⟩
  · intro api company_name
    unfold enrich_single_company
    simp [get_symbol_eq_none, truthyOpt]
  · intro api page_size rows
    unfold enrich_csv_file
    split
    · rfl
    · simp [enrichPages_no_update]

/-! ## Helper lemmas: batch statistics -/

theorem enrichRow_stats (api : String → ApiOutcome) (row : Row) :
    (enrichRow api row).2.2 ≤ (enrichRow api row).2.1 ∧
      (enrichRow api row).2.1 ≤ 1 := by
  unfold enrichRow
  cases hsel : (symbolMissing row.symbol && !(pyStrip row.name.toList == [])) with
  | false => simp [hsel]
  | true =>
    simp only [hsel]
    by_cases ht : truthyOpt (process_row api 0 row.name).2 = true <;> simp [ht]

theorem enrichChunk_stats (api : String → ApiOutcome) (chunk : List Row) :
    (enrichChunk api chunk).2.2 ≤ (enrichChunk api chunk).2.1 ∧
      (enrichChunk api chunk).2.1 ≤ chunk.length := by
  induction chunk with
  | nil => simp [enrichChunk]
  | cons row rest ih =>
    have hr := enrichRow_stats api row
    simp only [enrichChunk, List.length_cons]
    omega

theorem enrichPages_stats (api : String → ApiOutcome) (cs : List (List Row)) :
    (enrichPages api cs).2.2 ≤ (enrichPages api cs).2.1 ∧
      (enrichPages api cs).2.1 ≤ (cs.map List.length).sum := by
  induction cs with
  | nil => simp [enrichPages]
  | cons c rest ih =>
    have hc := enrichChunk_stats api c
    simp only [enrichPages, List.map_cons, List.sum_cons]
    omega

theorem chunksAux_length_sum (ps : ℕ) :
    ∀ (fuel : ℕ) (rows : List Row),
      ((chunksAux ps fuel rows).map List.length).sum ≤ rows.length := by
  intro fuel
  induction fuel with
  | zero => intro rows; simp [chunksAux]
  | succ m ih =>
    intro rows
    cases rows with
    | nil => simp [chunksAux]
    | cons r rest =>
      simp only [chunksAux, List.map_cons, List.sum_cons]
      have h0 := ih ((r :: rest).drop ps)
      have h1 : ((r :: rest).take ps).length = min ps (r :: rest).length :=
        List.length_take _ _
      have h2 : ((r :: rest).drop ps).length = (r :: rest).length - ps :=
        List.length_drop _ _
      omega

theorem chunksList_length_sum (ps : ℕ) (rows : List Row) :
    ((chunksList ps rows).map List.length).sum ≤ rows.length := by
  unfold chunksList
  split
  · simp
  · exact chunksAux_length_sum ps rows.length rows

theorem enrichPages_append (api : String → ApiOutcome) (xs ys : List (List Row)) :
    (enrichPages api (xs ++ ys)).2.1 =
        (enrichPages api xs).2.1 + (enrichPages api ys).2.1 ∧
      (enrichPages api (xs ++ ys)).2.2 =
        (enrichPages api xs).2.2 + (enrichPages api ys).2.2 := by
  induction xs with
  | nil => simp [enrichPages]
  | cons c rest ih =>
    obtain ⟨ih1, ih2⟩ := ih
    simp only [List.cons_append, enrichPages, List.append_eq, ih1, ih2]
    omega

/-- Claim C9. Batch statistics invariant: for every run of
enrich_csv_file over any input rows and any lookup behavior,
rows_updated + rows_failed = rows_processed and
rows_processed ≤ totalRows; and the counters accumulate monotonically
across pages — the statistics after the first k pages never exceed
those after the first k + 1 pages, for each of the three counters. -/
theorem batch_statistics_invariant (api : String → ApiOutcome) (page_size : ℕ)
    (rows : List Row) :
    ((enrich_csv_file api page_size rows).2.rows_updated +
          (enrich_csv_file api page_size rows).2.rows_failed =
        (enrich_csv_file api page_size rows).2.rows_processed) ∧
      (enrich_csv_file api page_size rows).2.rows_processed ≤ rows.length ∧
      ∀ k : ℕ,
        (statsUpTo api page_size rows k).1 ≤ (statsUpTo api page_size rows (k + 1)).1 ∧
          (statsUpTo api page_size rows k).2 ≤ (statsUpTo api page_size rows (k + 1)).2 ∧
          (statsUpTo api page_size rows k).1 - (statsUpTo api page_size rows k).2 ≤
            (statsUpTo api page_size rows (k + 1)).1 -
              (statsUpTo api page_size rows (k + 1)).2 := by
  refine ⟨?_, ?_, ?_⟩
  · unfold enrich_csv_file
    split
    · rfl
    · have h := enrichPages_stats api (chunksList page_size rows)
      simp only []
      omega
  · unfold enrich_csv_file
    split
    · simp
    · have h := enrichPages_stats api (chunksList page_size rows)
      have h2 := chunksList_length_sum page_size rows
      simp only []
      omega
  · intro k
    unfold statsUpTo
    rw [List.take_succ]
    obtain ⟨hp, hu⟩ :=
      enrichPages_append api ((chunksList page_size rows).take k)
        ((chunksList page_size rows)[k]?.toList)
    have hd := enrichPages_stats api ((chunksList page_size rows)[k]?.toList)
    have hk := enrichPages_stats api ((chunksList page_size rows).take k)
    omega

end FindingTickers
